import Mathlib

/-!
Shallow embedding of `schema.py`: a typed field/schema model with
validation, a positional deserializer, an append-only in-memory datastore
and a command dispatcher (`set-schema`, `add`, `get`).

Python dynamic values are modelled by the inductive `Value`; Python
exceptions (AssertionError, AttributeError, IndexError, ValueError) are
modelled by `Except PyErr`.  Python dicts (insertion ordered) are modelled
as association lists with first-key lookup and in-place update.
-/

namespace SchemaPy

/-- Universe of Python runtime values that can reach a field's `value`
slot in this program: strings, integers, floats (payload irrelevant to
every `isinstance` dispatch in the source, carried as a rational) and
`None` (which is also the initial, unset value of every field). -/
inductive Value where
  | vStr (s : String)
  | vInt (n : Int)
  | vFloat (q : Rat)
  | vNone
  deriving DecidableEq, Repr

/-- Python `str(value)` restricted to the `Value` universe, used only to
render assertion messages.  (Float rendering is approximate; no claim
inspects a float message.) -/
def pyStrOfValue : Value → String
  | .vStr s => s
  | .vInt n => toString n
  | .vFloat q => toString q
  | .vNone => "None"

/-- Python `str.isdigit` on the ASCII fragment: non-empty and every
character a decimal digit.  (Non-ASCII unicode digits are outside the
modelled universe.) -/
def pyIsdigit (s : String) : Bool :=
  !s.isEmpty && s.data.all (fun c => c.isDigit)

def digitsVal (cs : List Char) : Nat :=
  cs.foldl (fun acc c => acc * 10 + (c.toNat - 48)) 0

def pyDigits (cs : List Char) : Option Nat :=
  if !cs.isEmpty && cs.all (fun c => c.isDigit) then some (digitsVal cs) else none

def pyIntCore : List Char → Option Int
  | '-' :: rest => (pyDigits rest).map (fun n => -(n : Int))
  | '+' :: rest => (pyDigits rest).map (fun n => (n : Int))
  | cs => (pyDigits cs).map (fun n => (n : Int))

/-- Python `str.strip()` (ASCII whitespace) as a structural char-list
operation. -/
def pyStrip (cs : List Char) : List Char :=
  ((cs.dropWhile Char.isWhitespace).reverse.dropWhile Char.isWhitespace).reverse

/-- Python `int(s)` on a string: strip surrounding whitespace, optional
sign, then decimal digits; anything else raises ValueError (`none` here).
(Underscore digit grouping and non-ASCII digits are not modelled.) -/
def pyInt (s : String) : Option Int :=
  pyIntCore (pyStrip s.data)

/-- Python `str.split(sep)` for a one-character separator: split on every
occurrence, keeping empty chunks (so the result is never empty). -/
def splitChar (sep : Char) : List Char → List (List Char)
  | [] => [[]]
  | c :: rest =>
    if c = sep then [] :: splitChar sep rest
    else
      match splitChar sep rest with
      | [] => [[c]]
      | g :: gs => (c :: g) :: gs

def pySplit (s : String) (sep : Char) : List String :=
  (splitChar sep s.data).map String.mk

/-- Python `str.startswith` as a structural prefix test. -/
def pyStartsWith (s pre : String) : Bool :=
  List.isPrefixOf pre.data s.data

/-- Python `str.endswith` as a structural suffix test. -/
def pyEndsWith (s suf : String) : Bool :=
  List.isPrefixOf suf.data.reverse s.data.reverse

/-- Python exceptions raised by this program. -/
inductive PyErr where
  | assertion (msg : String)
  | attr (msg : String)
  | indexErr
  | valueErr
  deriving DecidableEq, Repr

/-- The two concrete `Type` subclasses of the source, `StringType` and
`IntType`, with their `name`, kind-specific parameters and current
`value` (initially `Value.vNone`, as `Type.__init__` sets `None`). -/
inductive FieldT where
  | stringT (name : String) (max_len : Int) (value : Value)
  | intT (name : String) (value : Value)
  deriving DecidableEq, Repr

def FieldT.name : FieldT → String
  | .stringT n _ _ => n
  | .intT n _ => n

def FieldT.value : FieldT → Value
  | .stringT _ _ v => v
  | .intT _ v => v

/-- `Type.set_value`: stores the raw value unchanged. -/
def FieldT.set_value : FieldT → Value → FieldT
  | .stringT n ml _, v => .stringT n ml v
  | .intT n _, v => .intT n v

/-- `StringType.validate` / `IntType.validate`: the three asserts of the
string case in source order (isinstance, length, quoting), and the
str-isdigit / isinstance-int dispatch of the int case. -/
def FieldT.validate : FieldT → Except String Unit
  | .stringT n ml v =>
    match v with
    | .vStr s =>
      if (s.length : Int) ≤ ml then
        if pyStartsWith s "\x27" && pyEndsWith s "\x27" then .ok ()
        else .error ("String must be enclosed in single quotes (e.g., \x27value\x27) - " ++ n ++ ": " ++ s)
      else .error ("String exceeds max length- " ++ n ++ ": " ++ s)
    | w => .error ("Value must be a string - " ++ n ++ ": " ++ pyStrOfValue w)
  | .intT n v =>
    match v with
    | .vStr s =>
      if pyIsdigit s then .ok ()
      else .error ("Value must be an integer - " ++ n ++ ": " ++ s)
    | .vInt _ => .ok ()
    | w => .error ("Value must be an integer - " ++ n ++ ": " ++ pyStrOfValue w)

/-- First-match lookup in an insertion-ordered dict. -/
def dictLookup (d : List (String × α)) (k : String) : Option α :=
  match d with
  | [] => none
  | (k2, v) :: rest => if k2 = k then some v else dictLookup rest k

/-- Python dict assignment `d[k] = v`: update in place when the key is
present, otherwise append at the end. -/
def dictInsert (d : List (String × α)) (k : String) (v : α) : List (String × α) :=
  match d with
  | [] => [(k, v)]
  | (k2, v2) :: rest => if k2 = k then (k2, v) :: rest else (k2, v2) :: dictInsert rest k v

/-- `Schema`: the `fields` dict (whose values may be Python `None` when
`unpack_type` returned nothing for an unknown kind, hence
`Option FieldT`), plus the other instance attributes created by the
fallback branch of `__setattr__` (`extra`). -/
structure Schema where
  fields : List (String × Option FieldT)
  extra : List (String × Value)
  deriving DecidableEq, Repr

def Schema.fieldlen (s : Schema) : Nat := s.fields.length

/-- The sequential loop `for (k, v), value in zip(self.fields.items(),
values): v.set_value(value)`.  A `None` dict value raises AttributeError
when reached.  (Python mutates earlier fields before raising; the raised
case discards the partial state here, which no caller in the source ever
observes, since the exception always propagates out of `add` and the
instance is dropped.) -/
def assignZip : List (String × Option FieldT) → List Value → Except PyErr (List (String × Option FieldT))
  | fs, [] => .ok fs
  | [], _ :: _ => .ok []
  | (k, some f) :: fs, v :: vs => do
    let rest ← assignZip fs vs
    .ok ((k, some (f.set_value v)) :: rest)
  | (_, none) :: _, _ :: _ => .error (.attr "NoneType object has no attribute set_value")

/-- Total description of the same positional zip: assign values to fields
pairwise, ignore extra values, leave trailing fields untouched. -/
def listZipAssign : List (String × Option FieldT) → List Value → List (String × Option FieldT)
  | fs, [] => fs
  | [], _ :: _ => []
  | (k, of) :: fs, v :: vs => (k, of.map (fun f => f.set_value v)) :: listZipAssign fs vs

/-- `for key, field in self.fields.items(): field.validate()` — first
failing assert propagates; a `None` dict value raises AttributeError. -/
def validateFields : List (String × Option FieldT) → Except PyErr Unit
  | [] => .ok ()
  | (_, some f) :: rest =>
    match f.validate with
    | .ok _ => validateFields rest
    | .error m => .error (.assertion m)
  | (_, none) :: _ => .error (.attr "NoneType object has no attribute validate")

def Schema.validate (s : Schema) : Except PyErr Unit := validateFields s.fields

/-- `build`: validate, then return self. -/
def Schema.build (s : Schema) : Except PyErr Schema := do
  s.validate
  .ok s

/-- `set_values`: the guard `if values:` makes an empty list (or `None`)
skip both assignment and validation entirely; otherwise zip-assign and
`build`.  The source mutates in place and returns `None`; the model
returns the updated schema, which is what callers observe through the
shared instance. -/
def Schema.set_values (s : Schema) (values : List Value) : Except PyErr Schema :=
  if values.isEmpty then .ok s
  else do
    let fs ← assignZip s.fields values
    Schema.build ⟨fs, s.extra⟩

/-- `__getattr__`: runs only when ordinary lookup fails; returns the
declared field's current value, AttributeError otherwise (including the
NoneType dereference when the dict stores Python `None`). -/
def Schema.getattrFallback (s : Schema) (key : String) : Except PyErr Value :=
  match dictLookup s.fields key with
  | some (some f) => .ok f.value
  | some none => .error (.attr "NoneType object has no attribute value")
  | none => .error (.attr (key ++ " not found"))

/-- Attribute read as Python resolves it for data attributes: instance
dict first (attributes created by the fallback branch of `__setattr__`),
then the `__getattr__` hook.  (Class attributes and methods are outside
the modelled name space.) -/
def Schema.pyGetattr (s : Schema) (key : String) : Except PyErr Value :=
  match dictLookup s.extra key with
  | some v => .ok v
  | none => s.getattrFallback key

/-- Python `in` on two strings is substring containment. -/
def listIsInfixB (n : List Char) : List Char → Bool
  | [] => n.isEmpty
  | a :: rest => List.isPrefixOf n (a :: rest) || listIsInfixB n rest

def pySubstr (needle haystack : String) : Bool :=
  listIsInfixB needle.data haystack.data

/-- `__setattr__`: the source tests `key in ("fields")`.  `("fields")` is
the plain string, so this is substring containment, not tuple membership:
any key that is a substring of the text "fields" takes the raw
`object.__setattr__` branch.  Otherwise declared fields are set through
`set_value` (AttributeError when the dict stores Python `None`), and
undeclared keys become ordinary instance attributes.  (Assigning the
literal name "fields" would replace the dict itself; the `Value`-typed
model records every raw assignment in `extra`, and no theorem uses that
key.) -/
def Schema.pySetattr (s : Schema) (key : String) (v : Value) : Except PyErr Schema :=
  if pySubstr key "fields" then
    .ok ⟨s.fields, dictInsert s.extra key v⟩
  else
    match dictLookup s.fields key with
    | some (some f) => .ok ⟨dictInsert s.fields key (some (f.set_value v)), s.extra⟩
    | some none => .error (.attr "NoneType object has no attribute set_value")
    | none => .ok ⟨s.fields, dictInsert s.extra key v⟩

/-- The field values of a schema in declaration order (a dict value that
is Python `None` contributes `none`). -/
def Schema.values (s : Schema) : List (Option Value) :=
  s.fields.map (fun kv => kv.2.map FieldT.value)

/-- `Deserializer.deserialize`: split the data line on single spaces,
assert the token count equals the field count (AssertionError — the
FormatError of the design — otherwise), then `set_values` with the raw
string tokens; returns the populated, validated schema. -/
def Deserializer.deserialize (schema : Schema) (data : String) : Except PyErr Schema :=
  let values := pySplit data ' '
  if values.length = schema.fieldlen then
    schema.set_values (values.map Value.vStr)
  else
    .error (.assertion ("Incorrect number of fields. Expected " ++ toString schema.fieldlen ++ ", Actual " ++ toString values.length))

/-- `Datastore.save`: append, return the assigned index (the length
before the append) together with the record. -/
def Datastore.save (store : List Schema) (data : Schema) : Nat × List Schema :=
  (store.length, store ++ [data])

/-- Python list subscription `l[i]` with negative-index wraparound and
IndexError outside `[-len, len)`. -/
def pyIndex (l : List α) (i : Int) : Except PyErr α :=
  let j : Int := if i < 0 then (l.length : Int) + i else i
  if j < 0 then .error .indexErr
  else
    match l.get? j.toNat with
    | some a => .ok a
    | none => .error .indexErr

/-- `Datastore.load`: `None` sentinel (`.ok none`) when `index >
len(store) - 1`; otherwise plain Python subscription, so negative
indices fall through to wraparound semantics (raising IndexError on an
empty store). -/
def Datastore.load (store : List Schema) (index : Int) : Except PyErr (Option Schema) :=
  if (store.length : Int) - 1 < index then .ok none
  else (pyIndex store index).map some

/-- The state of a `Program`: the current schema template (a Python
`Optional[str]`) and the datastore contents. -/
structure ProgState where
  current_schema : Option String
  datastore : List Schema
  deriving DecidableEq, Repr

inductive TypeKind where
  | stringK
  | intK
  deriving DecidableEq, Repr

/-- `key2type`: the class for a kind keyword, implicitly `None` for
anything other than "string" and "int". -/
def Program.key2type (key : String) : Option TypeKind :=
  if key = "string" then some .stringK
  else if key = "int" then some .intK
  else none

/-- `unpack_type`: reads `details[0]` and `details[1]` (IndexError when
missing), dispatches on the kind; the string kind additionally reads
`details[2]` and parses it with `int` (ValueError on failure); an unknown
kind falls off the end of the function and returns Python `None`. -/
def Program.unpack_type (details : List String) : Except PyErr (Option FieldT) :=
  match details with
  | [] => .error .indexErr
  | fieldname :: rest =>
    match rest with
    | [] => .error .indexErr
    | kind :: rest2 =>
      match Program.key2type kind with
      | some .stringK =>
        match rest2 with
        | [] => .error .indexErr
        | p :: _ =>
          match pyInt p with
          | some n => .ok (some (.stringT fieldname n .vNone))
          | none => .error .valueErr
      | some .intK => .ok (some (.intT fieldname .vNone))
      | none => .ok none

/-- The loop body of `create_schema_instance`: split each spec on pipes,
unpack it and store the result (possibly Python `None`) under the spec's
first token. -/
def Program.buildFields (specs : List String) (acc : List (String × Option FieldT)) : Except PyErr (List (String × Option FieldT)) :=
  match specs with
  | [] => .ok acc
  | t :: rest => do
    let props := pySplit t '|'
    let fieldname := props.headD ""
    let typz ← Program.unpack_type props
    Program.buildFields rest (dictInsert acc fieldname typz)

/-- `create_schema_instance`: split the template on spaces and build the
fields dict spec by spec. -/
def Program.create_schema_instance (schema_template : String) : Except PyErr Schema := do
  let fs ← Program.buildFields (pySplit schema_template ' ') []
  .ok ⟨fs, []⟩

/-- `set_schema`: store the template verbatim and clear the datastore. -/
def Program.set_schema (st : ProgState) (schema_template : String) : ProgState :=
  ⟨some schema_template, []⟩

/-- Outcome of a successful `add` call: either the early return after
printing "No schema defined" (Python returns `None`), or the
`(index, record)` pair from `Datastore.save`. -/
inductive AddResult where
  | noSchema
  | saved (index : Nat) (record : Schema)
  deriving DecidableEq, Repr

/-- `add`: `if not self.current_schema` (falsy for `None` and the empty
string) prints and returns; otherwise build a fresh schema from the
template, deserialize the data into it and save it.  Any exception
propagates before `save`, so the state is unchanged on every failure. -/
def Program.add (st : ProgState) (data : String) : Except PyErr (AddResult × ProgState) :=
  match st.current_schema with
  | none => .ok (.noSchema, st)
  | some t =>
    if t = "" then .ok (.noSchema, st)
    else do
      let schema_instance ← Program.create_schema_instance t
      let record ← Deserializer.deserialize schema_instance data
      let (idx, store2) := Datastore.save st.datastore record
      .ok (.saved idx record, ⟨st.current_schema, store2⟩)

/-- `get`: parse the index with `int` (ValueError on failure) and load. -/
def Program.get (st : ProgState) (index : String) : Except PyErr (Option Schema) :=
  match pyInt index with
  | none => .error .valueErr
  | some i => Datastore.load st.datastore i

/-- The three commands the claims exercise through the REPL. -/
inductive Cmd where
  | setSchema (t : String)
  | addCmd (d : String)
  | getCmd (i : String)
  deriving DecidableEq, Repr

/-- One REPL iteration: dispatch the command; the loop catches every
exception and keeps going with the state unchanged.  The second component
is the index returned when the command was a successful `add`. -/
def step (st : ProgState) : Cmd → ProgState × Option Nat
  | .setSchema t => (Program.set_schema st t, none)
  | .addCmd d =>
    match Program.add st d with
    | .ok (.saved i _, st2) => (st2, some i)
    | .ok (.noSchema, st2) => (st2, none)
    | .error _ => (st, none)
  | .getCmd _ => (st, none)

/-- Run a command sequence, collecting the indices returned by the
successful `add` calls in order. -/
def runProgram (st : ProgState) : List Cmd → ProgState × List Nat
  | [] => (st, [])
  | c :: cs =>
    let p := step st c
    let q := runProgram p.1 cs
    (q.1, p.2.toList ++ q.2)

/-- Does the result of an `add` call model a FormatError, i.e. the
AssertionError raised by the token-count check of `deserialize`? -/
def isFormatFailure : Except PyErr (AddResult × ProgState) → Bool
  | .error (.assertion _) => true
  | _ => false

/-- Demo template of the worked example in the source. -/
def demoTemplate : String := "firstname|string|255 lastname|string|255 age|int"

/-- The schema `create_schema_instance` builds from `demoTemplate`. -/
def demoSchema : Schema :=
  ⟨[("firstname", some (.stringT "firstname" 255 .vNone)),
    ("lastname", some (.stringT "lastname" 255 .vNone)),
    ("age", some (.intT "age" .vNone))], []⟩

def demoData : String := "\x27John\x27 \x27Doe\x27 30"

def demoState : ProgState := ⟨some demoTemplate, []⟩

/-- The record produced by a successful `add demoData` in `demoState`. -/
def demoRecord : Schema :=
  ⟨listZipAssign demoSchema.fields ((pySplit demoData ' ').map Value.vStr), demoSchema.extra⟩

/-- A schema with a single int field whose value is still unset. -/
def c5schema : Schema := ⟨[("age", some (.intT "age" .vNone))], []⟩

def c5values : List Value := [.vStr "30", .vStr "7"]

/-- The result of `c5schema.set_values c5values`. -/
def c5result : Schema := ⟨listZipAssign c5schema.fields c5values, c5schema.extra⟩

/-- A schema declaring a field whose name is a substring of the text
"fields". -/
def c6schema : Schema := ⟨[("f", some (.intT "f" .vNone))], []⟩

def c8record : Schema := ⟨[("age", some (.intT "age" (.vStr "30")))], []⟩

/- ---------------------------------------------------------------- -/
/- Helper lemmas -/
/- ---------------------------------------------------------------- -/

theorem FieldT.value_set_value (f : FieldT) (v : Value) : (f.set_value v).value = v := by
  cases f <;> rfl

theorem FieldT.name_set_value (f : FieldT) (v : Value) : (f.set_value v).name = f.name := by
  cases f <;> rfl

/-- Whenever the sequential zip assignment succeeds, its result is the
total positional description `listZipAssign`. -/
theorem assignZip_ok_eq : ∀ (fs : List (String × Option FieldT)) (vs : List Value)
    (fs2 : List (String × Option FieldT)), assignZip fs vs = .ok fs2 → fs2 = listZipAssign fs vs
  | fs, [], fs2 => by
    intro h
    cases fs <;> simp [assignZip, listZipAssign] at h <;> simp [listZipAssign, h]
  | [], _ :: _, fs2 => by
    intro h
    simp [assignZip, listZipAssign] at h
    simp [listZipAssign, h]
  | (k, some f) :: fs, v :: vs, fs2 => by
    intro h
    simp only [assignZip, bind, Except.bind] at h
    cases haz : assignZip fs vs with
    | error e => rw [haz] at h; exact absurd h (by simp)
    | ok rest =>
      rw [haz] at h
      simp only [Except.ok.injEq] at h
      subst h
      simp [listZipAssign, Option.map, assignZip_ok_eq fs vs rest haz]
  | (k, none) :: fs, v :: vs, fs2 => by
    intro h
    simp [assignZip] at h

/-- The only exception the zip-assignment loop can raise is the
AttributeError from dereferencing a Python `None` dict value. -/
theorem assignZip_error_attr : ∀ (fs : List (String × Option FieldT)) (vs : List Value) (e : PyErr),
    assignZip fs vs = .error e → ∃ m, e = .attr m
  | fs, [], e => by intro h; cases fs <;> simp [assignZip] at h
  | [], _ :: _, e => by intro h; simp [assignZip] at h
  | (k, some f) :: fs, v :: vs, e => by
    intro h
    simp only [assignZip, bind, Except.bind] at h
    cases haz : assignZip fs vs with
    | error e2 =>
      rw [haz] at h
      simp only [Except.error.injEq] at h
      subst h
      exact assignZip_error_attr fs vs e2 haz
    | ok rest =>
      rw [haz] at h
      exact absurd h (by simp)
  | (k, none) :: fs, v :: vs, e => by
    intro h
    simp only [assignZip, Except.error.injEq] at h
    exact ⟨_, h.symm⟩

/-- If every field of the positionally assigned dict validates, the
sequential assignment cannot hit a `None` entry, hence succeeds. -/
theorem assignZip_ok_of_validateFields : ∀ (fs : List (String × Option FieldT)) (vs : List Value),
    validateFields (listZipAssign fs vs) = .ok () → assignZip fs vs = .ok (listZipAssign fs vs)
  | fs, [] => by intro _; cases fs <;> simp [assignZip, listZipAssign]
  | [], _ :: _ => by intro _; simp [assignZip, listZipAssign]
  | (k, some f) :: fs, v :: vs => by
    intro h
    simp only [listZipAssign, Option.map_some', validateFields] at h
    cases hv : (f.set_value v).validate with
    | error m => rw [hv] at h; exact absurd h (by simp)
    | ok u =>
      rw [hv] at h
      have ih := assignZip_ok_of_validateFields fs vs h
      simp [assignZip, bind, Except.bind, ih, listZipAssign]
  | (k, none) :: fs, v :: vs => by
    intro h
    simp [listZipAssign, validateFields] at h

/-- With matching lengths and a fully validating result, the assigned
field values are exactly the input values. -/
theorem listZipAssign_values : ∀ (fs : List (String × Option FieldT)) (vs : List Value),
    fs.length = vs.length → validateFields (listZipAssign fs vs) = .ok () →
    (listZipAssign fs vs).map (fun kv => kv.2.map FieldT.value) = vs.map some
  | [], [] => by intro _ _; rfl
  | [], _ :: _ => by intro h _; simp at h
  | _ :: _, [] => by intro h _; simp at h
  | (k, some f) :: fs, v :: vs => by
    intro hlen hval
    simp only [listZipAssign, Option.map_some', validateFields] at hval
    cases hv : (f.set_value v).validate with
    | error m => rw [hv] at hval; exact absurd hval (by simp)
    | ok u =>
      rw [hv] at hval
      have hlen2 : fs.length = vs.length := by simpa using hlen
      have ih := listZipAssign_values fs vs hlen2 hval
      simp only [listZipAssign, Option.map_some', List.map_cons, FieldT.value_set_value]
      rw [ih]
  | (k, none) :: fs, v :: vs => by
    intro hlen hval
    simp [listZipAssign, validateFields] at hval

/-- A validateFields failure that is an AssertionError comes from a
present field whose own validate fails with the same message, and that
message embeds the field's name. -/
theorem validateFields_assertion_mem : ∀ (fs : List (String × Option FieldT)) (m : String),
    validateFields fs = .error (.assertion m) →
    ∃ k f, (k, some f) ∈ fs ∧ FieldT.validate f = .error m
  | [], m => by intro h; simp [validateFields] at h
  | (k, some f) :: fs, m => by
    intro h
    simp only [validateFields] at h
    cases hv : f.validate with
    | error m2 =>
      rw [hv] at h
      simp only [Except.error.injEq, PyErr.assertion.injEq] at h
      subst h
      exact ⟨k, f, by simp, hv⟩
    | ok u =>
      rw [hv] at h
      obtain ⟨k2, f2, hmem, hval⟩ := validateFields_assertion_mem fs m h
      exact ⟨k2, f2, by simp [hmem], hval⟩
  | (k, none) :: fs, m => by
    intro h
    simp [validateFields] at h

/-- The field name sits inside every message shaped `pre ++ name ++
": " ++ suffix`. -/
theorem name_infix_msg (pre n suf : String) : n.data <:+: (pre ++ n ++ ": " ++ suf).data :=
  ⟨pre.data, (": ").data ++ suf.data, by simp [String.data_append]⟩

/-- Every validation failure message of a field embeds the field's
name. -/
theorem validate_error_name_infix (f : FieldT) (m : String)
    (h : FieldT.validate f = .error m) : f.name.data <:+: m.data := by
  cases f with
  | stringT n ml v =>
    cases v with
    | vStr s =>
      simp only [FieldT.validate] at h
      split at h
      · split at h
        · exact absurd h (by simp)
        · simp only [Except.error.injEq] at h
          subst h
          simpa [FieldT.name] using
            name_infix_msg "String must be enclosed in single quotes (e.g., \x27value\x27) - " n s
      · simp only [Except.error.injEq] at h
        subst h
        simpa [FieldT.name] using name_infix_msg "String exceeds max length- " n s
    | vInt i =>
      simp only [FieldT.validate, Except.error.injEq] at h
      subst h
      simpa [FieldT.name] using name_infix_msg "Value must be a string - " n (pyStrOfValue (.vInt i))
    | vFloat q =>
      simp only [FieldT.validate, Except.error.injEq] at h
      subst h
      simpa [FieldT.name] using name_infix_msg "Value must be a string - " n (pyStrOfValue (.vFloat q))
    | vNone =>
      simp only [FieldT.validate, Except.error.injEq] at h
      subst h
      simpa [FieldT.name] using name_infix_msg "Value must be a string - " n (pyStrOfValue .vNone)
  | intT n v =>
    cases v with
    | vStr s =>
      simp only [FieldT.validate] at h
      split at h
      · exact absurd h (by simp)
      · simp only [Except.error.injEq] at h
        subst h
        simpa [FieldT.name] using name_infix_msg "Value must be an integer - " n s
    | vInt i => simp [FieldT.validate] at h
    | vFloat q =>
      simp only [FieldT.validate, Except.error.injEq] at h
      subst h
      simpa [FieldT.name] using name_infix_msg "Value must be an integer - " n (pyStrOfValue (.vFloat q))
    | vNone =>
      simp only [FieldT.validate, Except.error.injEq] at h
      subst h
      simpa [FieldT.name] using name_infix_msg "Value must be an integer - " n (pyStrOfValue .vNone)

/-- A fields dict containing a Python `None` entry can never validate. -/
theorem validateFields_none_ne_ok : ∀ (fs : List (String × Option FieldT)) (k : String),
    (k, none) ∈ fs → validateFields fs ≠ .ok ()
  | [], k => by intro h; simp at h
  | (k2, some f) :: fs, k => by
    intro hmem h
    simp only [List.mem_cons] at hmem
    rcases hmem with heq | hmem
    · exact absurd heq (by simp)
    · simp only [validateFields] at h
      cases hv : f.validate with
      | error m => rw [hv] at h; exact absurd h (by simp)
      | ok u => rw [hv] at h; exact validateFields_none_ne_ok fs k hmem h
  | (k2, none) :: fs, k => by
    intro hmem h
    simp [validateFields] at h

/-- First-match dict lookup only returns stored entries. -/
theorem dictLookup_mem : ∀ (d : List (String × α)) (k : String) (v : α),
    dictLookup d k = some v → (k, v) ∈ d
  | [], k, v => by intro h; simp [dictLookup] at h
  | (k2, v2) :: rest, k, v => by
    intro h
    simp only [dictLookup] at h
    by_cases hk : k2 = k
    · subst hk
      simp only [if_true] at h
      simp only [Option.some.injEq] at h
      simp [h]
    · simp only [hk, if_false] at h
      exact List.mem_cons_of_mem _ (dictLookup_mem rest k v h)

/-- Loading at the index `save` just assigned returns the record. -/
theorem load_concat (l : List Schema) (r : Schema) :
    Datastore.load (l ++ [r]) (l.length : Int) = .ok (some r) := by
  have hnot : ¬ (((l ++ [r]).length : Int) - 1 < (l.length : Int)) := by
    simp only [List.length_append, List.length_singleton]
    push_cast
    omega
  have hpos : ¬ ((l.length : Int) < 0) := by omega
  have htn : ((l.length : Int)).toNat = l.length := by omega
  simp only [Datastore.load, hnot, if_false, pyIndex, hpos, if_false, htn]
  simp [List.getElem?_concat_length, Except.map]

/-- A successful `deserialize` passed the token-count assert and came
out of `set_values`. -/
theorem deserialize_ok_eq (schema : Schema) (d : String) (r : Schema)
    (h : Deserializer.deserialize schema d = .ok r) :
    (pySplit d ' ').length = schema.fieldlen ∧
    Schema.set_values schema ((pySplit d ' ').map Value.vStr) = .ok r := by
  simp only [Deserializer.deserialize] at h
  split at h
  · exact ⟨by assumption, h⟩
  · exact absurd h (by simp)

/-- A successful `set_values` either hit the falsy-empty-list guard and
did nothing, or assigned positionally and fully validated. -/
theorem set_values_ok_cases (s : Schema) (vs : List Value) (s2 : Schema)
    (h : Schema.set_values s vs = .ok s2) :
    (vs = [] ∧ s2 = s) ∨
    (s2 = ⟨listZipAssign s.fields vs, s.extra⟩ ∧ Schema.validate s2 = .ok ()) := by
  simp only [Schema.set_values] at h
  split at h
  · left
    refine ⟨by simpa using (by assumption : vs.isEmpty = true), by simpa using h.symm⟩
  · right
    simp only [bind, Except.bind] at h
    cases haz : assignZip s.fields vs with
    | error e => rw [haz] at h; exact absurd h (by simp)
    | ok fs =>
      rw [haz] at h
      have hfs : fs = listZipAssign s.fields vs := assignZip_ok_eq _ _ _ haz
      subst hfs
      simp only [Schema.build, Schema.validate, bind, Except.bind] at h
      cases hv : validateFields (listZipAssign s.fields vs) with
      | error e => rw [hv] at h; exact absurd h (by simp)
      | ok u =>
        cases u
        rw [hv] at h
        simp only [Except.ok.injEq] at h
        subst h
        exact ⟨rfl, hv⟩

/-- Anatomy of a successful save: the returned index is the previous
store length, the record is appended, the template is untouched, and the
record validated before the append. -/
theorem add_saved_eq (st : ProgState) (d : String) (i : Nat) (r : Schema) (st2 : ProgState)
    (h : Program.add st d = .ok (.saved i r, st2)) :
    i = st.datastore.length ∧ st2 = ⟨st.current_schema, st.datastore ++ [r]⟩ ∧
    Schema.validate r = .ok () := by
  cases hc : st.current_schema with
  | none =>
    simp only [Program.add, hc] at h
    exact absurd h (by simp)
  | some t =>
    simp only [Program.add, hc] at h
    by_cases ht : t = ""
    · rw [if_pos ht] at h; exact absurd h (by simp)
    · rw [if_neg ht] at h
      simp only [bind, Except.bind] at h
      cases hcr : Program.create_schema_instance t with
      | error e =>
        simp only [hcr] at h
        exact absurd h (by simp)
      | ok schema =>
        simp only [hcr] at h
        cases hd : Deserializer.deserialize schema d with
        | error e =>
          simp only [hd] at h
          exact absurd h (by simp)
        | ok record =>
          simp only [hd] at h
          simp only [Datastore.save, Except.ok.injEq, Prod.mk.injEq, AddResult.saved.injEq] at h
          obtain ⟨⟨hi, hr⟩, hst⟩ := h
          subst hr
          subst hst
          obtain ⟨hcount, hsv⟩ := deserialize_ok_eq schema d record hd
          rcases set_values_ok_cases schema _ record hsv with ⟨hnil, hrs⟩ | ⟨-, hval⟩
          · have hz : (pySplit d ' ').length = 0 := by
              simpa using congrArg List.length hnil
            have hflen : schema.fields.length = 0 := by
              rw [hz] at hcount; exact hcount.symm
            have hsf : schema.fields = [] := List.length_eq_zero.mp hflen
            refine ⟨hi.symm, rfl, ?_⟩
            rw [hrs]
            simp [Schema.validate, hsf, validateFields]
          · exact ⟨hi.symm, rfl, hval⟩

/-- A `noSchema` outcome leaves the state alone and only happens when
the template is unset or empty. -/
theorem add_noSchema_eq (st : ProgState) (d : String) (st2 : ProgState)
    (h : Program.add st d = .ok (.noSchema, st2)) :
    st2 = st ∧ (st.current_schema = none ∨ st.current_schema = some "") := by
  cases hc : st.current_schema with
  | none =>
    simp only [Program.add, hc, Except.ok.injEq, Prod.mk.injEq] at h
    exact ⟨h.2.symm, Or.inl rfl⟩
  | some t =>
    simp only [Program.add, hc] at h
    by_cases ht : t = ""
    · rw [if_pos ht] at h
      simp only [Except.ok.injEq, Prod.mk.injEq] at h
      exact ⟨h.2.symm, Or.inr (ht ▸ rfl)⟩
    · rw [if_neg ht] at h
      simp only [bind, Except.bind] at h
      cases hcr : Program.create_schema_instance t with
      | error e =>
        simp only [hcr] at h
        exact absurd h (by simp)
      | ok schema =>
        simp only [hcr] at h
        cases hd : Deserializer.deserialize schema d with
        | error e =>
          simp only [hd] at h
          exact absurd h (by simp)
        | ok record =>
          simp only [hd] at h
          simp [Datastore.save] at h

/-- Over a command block with no `set-schema`, the indices handed out by
the successful adds continue the store length, consecutively. -/
theorem runProgram_no_setSchema : ∀ (cmds : List Cmd) (st : ProgState),
    (∀ t, Cmd.setSchema t ∉ cmds) →
    st.datastore.length ≤ (runProgram st cmds).1.datastore.length ∧
    (runProgram st cmds).2 =
      List.range' st.datastore.length
        ((runProgram st cmds).1.datastore.length - st.datastore.length)
  | [], st => by intro _; simp [runProgram]
  | c :: cs, st => by
    intro h
    have hcs : ∀ t, Cmd.setSchema t ∉ cs := fun t ht => h t (List.mem_cons_of_mem _ ht)
    cases c with
    | setSchema t => exact absurd (List.mem_cons_self _ _) (h t)
    | getCmd i =>
      have ih := runProgram_no_setSchema cs st hcs
      simpa [runProgram, step] using ih
    | addCmd d =>
      cases hadd : Program.add st d with
      | error e =>
        have ih := runProgram_no_setSchema cs st hcs
        simp only [runProgram, step, hadd]
        simpa using ih
      | ok p =>
        obtain ⟨res, st2⟩ := p
        cases res with
        | noSchema =>
          obtain ⟨hst2, -⟩ := add_noSchema_eq st d st2 hadd
          have ih := runProgram_no_setSchema cs st hcs
          simp only [runProgram, step, hadd, hst2]
          simpa using ih
        | saved i r =>
          obtain ⟨hi, hst2, -⟩ := add_saved_eq st d i r st2 hadd
          have hlen2 : st2.datastore.length = st.datastore.length + 1 := by
            rw [hst2]; simp
          have ih := runProgram_no_setSchema cs st2 hcs
          simp only [runProgram, step, hadd]
          simp only [Option.toList_some, List.singleton_append]
          constructor
          · omega
          · rw [ih.2, hlen2, hi]
            have hge : st.datastore.length + 1 ≤ (runProgram st2 cs).1.datastore.length := by
              omega
            have hsub : (runProgram st2 cs).1.datastore.length - st.datastore.length =
                ((runProgram st2 cs).1.datastore.length - (st.datastore.length + 1)) + 1 := by
              omega
            rw [hsub, List.range'_succ]

/- ---------------------------------------------------------------- -/
/- Claim theorems -/
/- ---------------------------------------------------------------- -/

/-- Claim C2: a string field's `validate()` succeeds exactly when the
stored value is a string of length at most `max_len` (quote characters
included in the count) that starts and ends with a single-quote
character; and `set_value` stores the raw value verbatim, so the quotes
are never stripped before storage. -/
theorem stringType_validate_iff (n : String) (ml : Int) (v : Value) :
    (FieldT.validate (.stringT n ml v) = .ok () ↔
      ∃ s, v = .vStr s ∧ (s.length : Int) ≤ ml ∧
        pyStartsWith s "\x27" = true ∧ pyEndsWith s "\x27" = true) ∧
    ∀ (f : FieldT) (w : Value), (FieldT.set_value f w).value = w := by
  constructor
  · constructor
    · intro h
      cases v with
      | vStr s =>
        simp only [FieldT.validate] at h
        split at h
        · split at h
          · rename_i h1 h2
            rw [Bool.and_eq_true] at h2
            exact ⟨s, rfl, h1, h2.1, h2.2⟩
          · exact absurd h (by simp)
        · exact absurd h (by simp)
      | vInt i => simp [FieldT.validate] at h
      | vFloat q => simp [FieldT.validate] at h
      | vNone => simp [FieldT.validate] at h
    · rintro ⟨s, rfl, h1, h2, h3⟩
      simp [FieldT.validate, h1, h2, h3]
  · intro f w
    exact FieldT.value_set_value f w

/-- Claim C3: an int field's `validate()` succeeds exactly when the
stored value is an integer or a non-empty all-decimal-digit string; in
particular it fails on the empty string, `None` and every float. -/
theorem intType_validate_iff (n : String) (v : Value) :
    (FieldT.validate (.intT n v) = .ok () ↔
      (∃ i : Int, v = .vInt i) ∨
      (∃ s, v = .vStr s ∧ s ≠ "" ∧ ∀ c ∈ s.data, c.isDigit = true)) ∧
    FieldT.validate (.intT n (.vStr "")) ≠ .ok () ∧
    FieldT.validate (.intT n .vNone) ≠ .ok () ∧
    ∀ q : Rat, FieldT.validate (.intT n (.vFloat q)) ≠ .ok () := by
  refine ⟨⟨?_, ?_⟩, ?_, ?_, ?_⟩
  · intro h
    cases v with
    | vInt i => exact Or.inl ⟨i, rfl⟩
    | vStr s =>
      simp only [FieldT.validate] at h
      split at h
      · rename_i h1
        simp only [pyIsdigit, Bool.and_eq_true, Bool.not_eq_true', List.all_eq_true] at h1
        refine Or.inr ⟨s, rfl, ?_, h1.2⟩
        intro hs
        rw [hs] at h1
        exact absurd h1.1 (by simp [String.isEmpty])
      · exact absurd h (by simp)
    | vFloat q => simp [FieldT.validate] at h
    | vNone => simp [FieldT.validate] at h
  · rintro (⟨i, rfl⟩ | ⟨s, rfl, hne, hdig⟩)
    · rfl
    · have hdg : pyIsdigit s = true := by
        simp only [pyIsdigit, Bool.and_eq_true, Bool.not_eq_true', List.all_eq_true]
        refine ⟨?_, hdig⟩
        cases hb : s.isEmpty with
        | false => rfl
        | true => exact absurd ((String.isEmpty_iff s).mp hb) hne
      simp [FieldT.validate, hdg]
  · intro h
    have hdg : pyIsdigit "" = false := rfl
    simp [FieldT.validate, hdg] at h
  · intro h
    simp [FieldT.validate] at h
  · intro q h
    simp [FieldT.validate] at h

/-- Claim C5 (counterexample): with an empty input list, `set_values`
raises nothing at all — the `if values:` guard skips assignment AND the
full validation the claim promises, even though the schema's only field
would fail validation. -/
theorem set_values_empty_skips_validation :
    Schema.set_values c5schema [] = .ok c5schema ∧
    Schema.validate c5schema = .error (.assertion "Value must be an integer - age: None") :=
  ⟨rfl, rfl⟩

/-- Claim C5 (amended to non-empty input lists): `set_values` assigns
positionally by zipping fields against the inputs (extras ignored,
trailing fields left unset), then triggers full validation; on success
everything validated, and a ValidationError carries the message of a
failing field, which embeds that field's name. -/
theorem set_values_nonempty_spec (s : Schema) (values : List Value) (hne : values ≠ []) :
    (∀ s2, Schema.set_values s values = .ok s2 →
      s2 = ⟨listZipAssign s.fields values, s.extra⟩ ∧ Schema.validate s2 = .ok ()) ∧
    (∀ e, Schema.set_values s values = .error e →
      assignZip s.fields values = .error e ∨
        (assignZip s.fields values = .ok (listZipAssign s.fields values) ∧
         validateFields (listZipAssign s.fields values) = .error e)) ∧
    (∀ e, validateFields (listZipAssign s.fields values) = .error e →
      assignZip s.fields values = .ok (listZipAssign s.fields values) →
      Schema.set_values s values = .error e) ∧
    (∀ m, Schema.set_values s values = .error (.assertion m) →
      ∃ k f, (k, some f) ∈ listZipAssign s.fields values ∧
        FieldT.validate f = .error m ∧ f.name.data <:+: m.data) := by
  have hemp : values.isEmpty = false := by
    cases values with
    | nil => exact absurd rfl hne
    | cons a l => rfl
  have herr : ∀ e, Schema.set_values s values = .error e →
      assignZip s.fields values = .error e ∨
        (assignZip s.fields values = .ok (listZipAssign s.fields values) ∧
         validateFields (listZipAssign s.fields values) = .error e) := by
    intro e he
    rw [Schema.set_values, hemp] at he
    simp only [Bool.false_eq_true, if_false, bind, Except.bind] at he
    cases haz : assignZip s.fields values with
    | error e2 =>
      rw [haz] at he
      simp only [Except.error.injEq] at he
      subst he
      exact Or.inl rfl
    | ok fs =>
      have hfs := assignZip_ok_eq _ _ _ haz
      subst hfs
      rw [haz] at he
      simp only [Schema.build, Schema.validate, bind, Except.bind] at he
      cases hv : validateFields (listZipAssign s.fields values) with
      | error e3 =>
        rw [hv] at he
        simp only [Except.error.injEq] at he
        subst he
        exact Or.inr ⟨rfl, rfl⟩
      | ok u =>
        rw [hv] at he
        exact absurd he (by simp)
  refine ⟨?_, herr, ?_, ?_⟩
  · intro s2 h
    rcases set_values_ok_cases s values s2 h with ⟨hnil, -⟩ | hgood
    · exact absurd hnil hne
    · exact hgood
  · intro e hv haz
    rw [Schema.set_values, hemp]
    simp only [Bool.false_eq_true, if_false, bind, Except.bind, haz]
    simp only [Schema.build, Schema.validate, bind, Except.bind, hv]
  · intro m hm
    rcases herr _ hm with haz | ⟨-, hv⟩
    · obtain ⟨m2, hm2⟩ := assignZip_error_attr s.fields values _ haz
      exact absurd hm2 (by simp)
    · obtain ⟨k, f, hmem, hval⟩ := validateFields_assertion_mem _ _ hv
      exact ⟨k, f, hmem, hval, validate_error_name_infix f m hval⟩

/-- Claim C5 (witness): a one-field schema with the two-element input
list assigns the first token, ignores the extra one and validates. -/
theorem set_values_nonempty_witness :
    Schema.set_values c5schema c5values = .ok c5result ∧
    Schema.validate c5result = .ok () :=
  ⟨rfl, ((set_values_nonempty_spec c5schema c5values (by decide)).1 c5result rfl).2⟩

/-- Claim C6 (code bug): the source tests `key in ("fields")`, a string
containment check, so writing the declared field named "f" (a substring
of "fields") performs a raw instance assignment: the Field Type's value
stays `None` while a shadowing instance attribute is created, and the
subsequent attribute read returns the shadow, never calling
`set_value`. -/
theorem setattr_substring_bug :
    Schema.pySetattr c6schema "f" (.vInt 5) =
      .ok ⟨[("f", some (.intT "f" .vNone))], [("f", .vInt 5)]⟩ ∧
    dictLookup c6schema.fields "f" = some (some (.intT "f" .vNone)) ∧
    Schema.pyGetattr ⟨[("f", some (.intT "f" .vNone))], [("f", .vInt 5)]⟩ "f" = .ok (.vInt 5) :=
  ⟨rfl, rfl, rfl⟩

/-- Claim C7: `set-schema` stores the template verbatim and clears the
datastore, so after set-schema, add, set-schema, a `get 0` reports the
not-found sentinel. -/
theorem set_schema_clears_store (st : ProgState) (s1 d1 s2 : String) :
    Program.set_schema st s1 = ⟨some s1, []⟩ ∧
    (runProgram st [.setSchema s1, .addCmd d1, .setSchema s2]).1 = ⟨some s2, []⟩ ∧
    Program.get (runProgram st [.setSchema s1, .addCmd d1, .setSchema s2]).1 "0" = .ok none := by
  refine ⟨rfl, rfl, ?_⟩
  have h2 : (runProgram st [.setSchema s1, .addCmd d1, .setSchema s2]).1 =
      (⟨some s2, []⟩ : ProgState) := rfl
  rw [h2]
  rfl

/-- Claim C8: `load` checks only the upper bound, returning the
not-found sentinel for any index past the end; negative indices fall
through to the container's wraparound semantics (an in-range negative
index returns the element counted from the end, an out-of-range one
raises IndexError); `get 99` on an empty store reports not-found. -/
theorem load_bounds_spec :
    (∀ (store : List Schema) (i : Int), (store.length : Int) - 1 < i →
      Datastore.load store i = .ok none) ∧
    (∀ (store : List Schema) (i : Int), i < 0 → 0 ≤ (store.length : Int) + i →
      ∃ a, store.get? ((store.length : Int) + i).toNat = some a ∧
        Datastore.load store i = .ok (some a)) ∧
    (∀ (store : List Schema) (i : Int), i < 0 → (store.length : Int) + i < 0 →
      Datastore.load store i = .error .indexErr) ∧
    (∀ cs : Option String, Program.get ⟨cs, []⟩ "99" = .ok none) := by
  refine ⟨?_, ?_, ?_, ?_⟩
  · intro store i h
    simp only [Datastore.load, h, if_true]
  · intro store i hneg hge
    have hub : ¬ ((store.length : Int) - 1 < i) := by omega
    have hlt : ((store.length : Int) + i).toNat < store.length := by omega
    refine ⟨store.get ⟨((store.length : Int) + i).toNat, hlt⟩, List.get?_eq_get hlt, ?_⟩
    simp only [Datastore.load, hub, if_false, pyIndex, hneg, if_true]
    have hj : ¬ ((store.length : Int) + i < 0) := by omega
    simp only [hj, if_false]
    rw [List.get?_eq_get hlt]
    simp [Except.map]
  · intro store i hneg hoob
    have hub : ¬ ((store.length : Int) - 1 < i) := by omega
    simp only [Datastore.load, hub, if_false, pyIndex, hneg, if_true, hoob, Except.map]
  · intro cs
    rfl

/-- Claim C8 (witness): concrete instances — index 5 past the end of an
empty store is not-found, index -1 on a one-record store wraps around to
that record, and index -1 on an empty store raises IndexError. -/
theorem load_bounds_witness :
    Datastore.load ([] : List Schema) 5 = .ok none ∧
    Datastore.load [c8record] (-1) = .ok (some c8record) ∧
    Datastore.load ([] : List Schema) (-1) = .error .indexErr := by
  refine ⟨load_bounds_spec.1 [] 5 (by decide), ?_, load_bounds_spec.2.2.1 [] (-1) (by decide) (by decide)⟩
  obtain ⟨a, ha, hl⟩ := load_bounds_spec.2.1 [c8record] (-1) (by decide) (by decide)
  have haa : c8record = a := by simpa using ha
  subst haa
  exact hl

/-- Claim C9: an unknown kind keyword makes `unpack_type` return Python
`None` without failing; a template all of whose specs unpack without
raising therefore builds, storing `None` under the unknown-kind field
name; and a schema carrying such a `None` entry can never validate, so
the field contributes no usable Field Type. -/
theorem unknown_kind_silent_gap :
    (∀ (fieldname kind : String) (rest : List String), Program.key2type kind = none →
      Program.unpack_type (fieldname :: kind :: rest) = .ok none) ∧
    (∀ (specs : List String) (acc : List (String × Option FieldT)),
      (∀ spec ∈ specs, (Program.unpack_type (pySplit spec '|')).isOk = true) →
      (Program.buildFields specs acc).isOk = true) ∧
    (∀ (s : Schema) (k : String), dictLookup s.fields k = some none →
      Schema.validate s ≠ .ok ()) := by
  refine ⟨?_, ?_, ?_⟩
  · intro fieldname kind rest hk
    simp [Program.unpack_type, hk]
  · intro specs
    induction specs with
    | nil => intro acc _; rfl
    | cons spec rest ih =>
      intro acc h
      have hspec := h spec (by simp)
      have hrest : ∀ sp ∈ rest, (Program.unpack_type (pySplit sp '|')).isOk = true :=
        fun sp hsp => h sp (by simp [hsp])
      cases hu : Program.unpack_type (pySplit spec '|') with
      | error e => rw [hu] at hspec; exact absurd hspec (by simp [Except.isOk, Except.toBool])
      | ok v =>
        simp only [Program.buildFields, bind, Except.bind, hu]
        exact ih _ hrest
  · intro s k hlook
    exact validateFields_none_ne_ok s.fields k (dictLookup_mem _ _ _ hlook)

/-- Claim C9 (witness): the spec "a|blah" has the unknown kind "blah";
it unpacks to Python `None` without failing, the two-spec template
builds, and the resulting schema (with `None` under "a") never
validates. -/
theorem unknown_kind_witness :
    Program.unpack_type ["age", "blah"] = .ok none ∧
    (Program.buildFields ["a|blah", "b|int"] []).isOk = true ∧
    Schema.validate ⟨[("a", none), ("b", some (.intT "b" .vNone))], []⟩ ≠ .ok () :=
  ⟨unknown_kind_silent_gap.1 "age" "blah" [] rfl,
   unknown_kind_silent_gap.2.1 ["a|blah", "b|int"] [] (by decide),
   unknown_kind_silent_gap.2.2 ⟨[("a", none), ("b", some (.intT "b" .vNone))], []⟩ "a" rfl⟩

/-- Claim C10: with the template unset (`None`) or equal to the empty
string — including right after `set-schema` with an empty argument —
`add` reports "No schema defined" (the `noSchema` outcome) and returns
with the state, in particular the datastore, unchanged. -/
theorem add_no_schema_guard :
    (∀ (st : ProgState) (d : String),
      st.current_schema = none ∨ st.current_schema = some "" →
      Program.add st d = .ok (.noSchema, st)) ∧
    (∀ (st : ProgState) (d : String),
      Program.add (Program.set_schema st "") d = .ok (.noSchema, Program.set_schema st "")) := by
  constructor
  · rintro st d (h | h) <;> simp [Program.add, h]
  · intro st d
    rfl

/-- Claim C10 (witness): the initial state has no schema, and `add`
leaves it untouched with the `noSchema` outcome. -/
theorem add_no_schema_witness :
    Program.add ⟨none, []⟩ "x" = .ok (.noSchema, ⟨none, []⟩) :=
  add_no_schema_guard.1 ⟨none, []⟩ "x" (Or.inl rfl)

/-- A fully validating positional assignment makes `set_values`
succeed with exactly the assigned fields (the empty-list case is the
degenerate one where nothing changes). -/
theorem set_values_ok_of_validate (s : Schema) (vs : List Value)
    (hval : validateFields (listZipAssign s.fields vs) = .ok ()) :
    Schema.set_values s vs = .ok ⟨listZipAssign s.fields vs, s.extra⟩ := by
  cases vs with
  | nil =>
    obtain ⟨fs, ex⟩ := s
    cases fs <;> rfl
  | cons v vs2 =>
    have haz := assignZip_ok_of_validateFields s.fields (v :: vs2) hval
    rw [Schema.set_values]
    simp only [List.isEmpty_cons, Bool.false_eq_true, if_false, bind, Except.bind, haz]
    simp only [Schema.build, Schema.validate, bind, Except.bind, hval]

/-- Claim C1: from a state whose active template builds successfully,
an `add` whose data line has exactly one token per field and whose
tokens all validate succeeds, storing the record at the next index; a
`get` with that index returns the very record, and its field values are
exactly the parsed input tokens (round-trip). -/
theorem add_get_roundtrip (st : ProgState) (t data s : String) (schema : Schema)
    (hcur : st.current_schema = some t) (hne : t ≠ "")
    (hcreate : Program.create_schema_instance t = .ok schema)
    (hcount : (pySplit data ' ').length = schema.fieldlen)
    (hval : validateFields (listZipAssign schema.fields ((pySplit data ' ').map Value.vStr)) = .ok ())
    (hidx : pyInt s = some (st.datastore.length : Int)) :
    Program.add st data =
      .ok (.saved st.datastore.length
        ⟨listZipAssign schema.fields ((pySplit data ' ').map Value.vStr), schema.extra⟩,
        ⟨st.current_schema,
         st.datastore ++ [⟨listZipAssign schema.fields ((pySplit data ' ').map Value.vStr), schema.extra⟩]⟩) ∧
    Program.get
      ⟨st.current_schema,
       st.datastore ++ [⟨listZipAssign schema.fields ((pySplit data ' ').map Value.vStr), schema.extra⟩]⟩ s =
      .ok (some ⟨listZipAssign schema.fields ((pySplit data ' ').map Value.vStr), schema.extra⟩) ∧
    Schema.values ⟨listZipAssign schema.fields ((pySplit data ' ').map Value.vStr), schema.extra⟩ =
      (pySplit data ' ').map (fun tok => some (Value.vStr tok)) := by
  have hsv := set_values_ok_of_validate schema ((pySplit data ' ').map Value.vStr) hval
  have hdeser : Deserializer.deserialize schema data =
      .ok ⟨listZipAssign schema.fields ((pySplit data ' ').map Value.vStr), schema.extra⟩ := by
    simp only [Deserializer.deserialize]
    rw [if_pos hcount]
    exact hsv
  refine ⟨?_, ?_, ?_⟩
  · simp only [Program.add, hcur]
    rw [if_neg hne]
    simp only [bind, Except.bind, hcreate, hdeser, Datastore.save]
  · simp only [Program.get, hidx]
    exact load_concat st.datastore _
  · have hlen : schema.fields.length = ((pySplit data ' ').map Value.vStr).length := by
      simp only [List.length_map]
      rw [hcount]
      rfl
    have hzv := listZipAssign_values schema.fields ((pySplit data ' ').map Value.vStr) hlen hval
    simp only [Schema.values]
    rw [hzv, List.map_map]
    rfl

/-- Claim C1 (witness): the worked example of the source — three-field
schema, the data line with two quoted strings and one int token — stores
at index 0, gets back the same record, whose values are the three
tokens. -/
theorem add_get_roundtrip_witness :
    Program.add demoState demoData =
      .ok (.saved demoState.datastore.length demoRecord,
        ⟨demoState.current_schema, demoState.datastore ++ [demoRecord]⟩) ∧
    Program.get ⟨demoState.current_schema, demoState.datastore ++ [demoRecord]⟩ "0" =
      .ok (some demoRecord) ∧
    Schema.values demoRecord = (pySplit demoData ' ').map (fun tok => some (Value.vStr tok)) :=
  add_get_roundtrip demoState demoTemplate demoData "0" demoSchema rfl (by decide) rfl rfl rfl rfl

/-- Claim C4 (counterexample): over the command sequence set-schema,
add, set-schema, add, both successful adds return index 0 — the second
set-schema clears the store and resets indexing, so the indices over the
whole sequence are not strictly increasing; moreover, from a state whose
active template is malformed ("age|string|x"), an add with a mismatched
token count fails with ValueError from template parsing, not with the
FormatError the claim promises. -/
theorem add_index_reset_counterexample :
    (runProgram ⟨none, []⟩
      [.setSchema "age|int", .addCmd "30", .setSchema "age|int", .addCmd "30"]).2 = [0, 0] ∧
    ¬ List.Chain' (fun a b : Nat => a < b)
      (runProgram ⟨none, []⟩
        [.setSchema "age|int", .addCmd "30", .setSchema "age|int", .addCmd "30"]).2 ∧
    Program.add ⟨some "age|string|x", []⟩ "1 2" = .error .valueErr ∧
    isFormatFailure (Program.add ⟨some "age|string|x", []⟩ "1 2") = false := by
  have h1 : (runProgram ⟨none, []⟩
      [.setSchema "age|int", .addCmd "30", .setSchema "age|int", .addCmd "30"]).2 = [0, 0] := rfl
  refine ⟨h1, ?_, rfl, rfl⟩
  rw [h1]
  simp [List.chain'_cons]

/-- Claim C4 (amended: the index sequence restarts from the cleared
store whenever set-schema intervenes, and the FormatError is only
reached when the active template itself builds): a token-count mismatch
on a well-formed template fails with the FormatError assert; a failed
add leaves the state untouched and consumes no index; a successful add
returns the pre-add store length, appends exactly one fully validated
record; and over any command block free of set-schema the indices of the
successful adds are consecutive from the store length at entry — hence
exactly 0, 1, 2, … from a cleared store. -/
theorem add_index_discipline :
    (∀ (st : ProgState) (t data : String) (schema : Schema),
      st.current_schema = some t → t ≠ "" →
      Program.create_schema_instance t = .ok schema →
      (pySplit data ' ').length ≠ schema.fieldlen →
      Program.add st data = .error (.assertion ("Incorrect number of fields. Expected " ++
        toString schema.fieldlen ++ ", Actual " ++ toString (pySplit data ' ').length))) ∧
    (∀ (st : ProgState) (d : String) (e : PyErr),
      Program.add st d = .error e → step st (.addCmd d) = (st, none)) ∧
    (∀ (st : ProgState) (d : String) (i : Nat) (r : Schema) (st2 : ProgState),
      Program.add st d = .ok (.saved i r, st2) →
      i = st.datastore.length ∧ st2.datastore = st.datastore ++ [r] ∧
      Schema.validate r = .ok ()) ∧
    (∀ (st : ProgState) (cmds : List Cmd),
      (∀ t, Cmd.setSchema t ∉ cmds) →
      (runProgram st cmds).2 =
        List.range' st.datastore.length
          ((runProgram st cmds).1.datastore.length - st.datastore.length)) := by
  refine ⟨?_, ?_, ?_, ?_⟩
  · intro st t data schema hcur hne hcreate hcount
    have hdes : Deserializer.deserialize schema data =
        .error (.assertion ("Incorrect number of fields. Expected " ++
          toString schema.fieldlen ++ ", Actual " ++ toString (pySplit data ' ').length)) := by
      simp only [Deserializer.deserialize]
      rw [if_neg hcount]
    simp only [Program.add, hcur]
    rw [if_neg hne]
    simp only [bind, Except.bind, hcreate, hdes]
  · intro st d e h
    simp only [step, h]
  · intro st d i r st2 h
    obtain ⟨hi, hst2, hvr⟩ := add_saved_eq st d i r st2 h
    exact ⟨hi, by rw [hst2], hvr⟩
  · intro st cmds h
    exact (runProgram_no_setSchema cmds st h).2

/-- Claim C4 (witness): from a freshly set schema, three adds of which
the middle one fails validation hand out the indices 0 and 1. -/
theorem add_index_discipline_witness :
    (runProgram ⟨some "age|int", []⟩ [.addCmd "30", .addCmd "x", .addCmd "31"]).2 = [0, 1] := by
  have h := add_index_discipline.2.2.2 ⟨some "age|int", []⟩
    [.addCmd "30", .addCmd "x", .addCmd "31"] (by intro t ht; simp at ht)
  rw [h]
  rfl

end SchemaPy
